import Mathlib

/-!
# Verification of the key-discovery engine

Shallow embedding of the core analysis functions of the repository
(`finder_primary_key.py` and `finder_column_level.py`): the tabular data
model, candidate-key validation, column classification, duplicate-scope
selection, row hashing and the greedy minimal-key reduction.

Modelling conventions:
* A cell value is `Option Val` with `none` standing for a pandas null
  (`NaN`/`None`).  The pandas operations used by the code
  (`nunique(dropna=False)`, `drop_duplicates`, `groupby(..., dropna=False)`)
  all treat null as a single equivalence class distinct from every non-null
  value, so plain decidable equality on `Option Val` is the faithful model.
* A `DataFrame` is a column-name list plus a list of rows, each row a list
  of cells aligned with the column list.  Row identifiers are positions.
* Python code that raises (`KeyError` on a column absent from the frame)
  is modelled by `Option`-returning functions, `none` = raise.
* pandas `DataFrame.empty` is `True` whenever any axis has length 0, and
  `drop_duplicates` returns an empty frame unchanged; hence projecting on
  an empty column list yields `unique_count = total_rows`.
-/

namespace PkFinder

/-- Scalar values occurring in a table: string, number, or boolean.
Numbers are modelled as integers (fractional values play no role in any
of the claims). -/
inductive Val where
  | str (s : String)
  | num (n : Int)
  | bool (b : Bool)
deriving DecidableEq, Repr

/-- A cell is a nullable scalar; `none` is the pandas null. -/
abbrev Cell := Option Val

/-- In-memory tabular value store: ordered column names and ordered rows,
each row holding one (possibly null) cell per declared column. -/
structure DataFrame where
  cols : List String
  rows : List (List Cell)
deriving DecidableEq, Repr

/-- Cell of row `r` at the column named `c` (first matching column; `none`
when the row is ragged or the column is absent — callers that would raise
in Python guard existence separately). -/
def cellAt (d : DataFrame) (r : List Cell) (c : String) : Cell :=
  match d.cols.findIdx? (· == c) with
  | some i => r.getD i none
  | none => none

/-- The column `c` of the frame as a list of cells (pandas `df[c]`). -/
def columnCells (d : DataFrame) (c : String) : List Cell :=
  d.rows.map (fun r => cellAt d r c)

/-- Number of nulls in column `c` (pandas `df[c].isnull().sum()`). -/
def colNulls (d : DataFrame) (c : String) : Nat :=
  ((columnCells d c).filter (·.isNone)).length

/-- Number of distinct values in column `c`, nulls counted as one distinct
value (pandas `df[c].nunique(dropna=False)`). -/
def colUnique (d : DataFrame) (c : String) : Nat :=
  (columnCells d c).dedup.length

/-- Python `sorted` on strings: stable sort by the code-point
lexicographic order (insertion sort is stable, like Python's sort; the
order is compared on the underlying character lists, which coincides
with the string order). -/
def pysort (l : List String) : List String :=
  List.insertionSort (fun a b => a.data ≤ b.data) l

/-- `df.drop_duplicates()` over all columns: keep the first occurrence of
each full-row value tuple, preserving the survivors' relative order. -/
def drop_duplicates (d : DataFrame) : DataFrame :=
  { cols := d.cols, rows := d.rows.eraseDups }

/-- Rows whose `search_key` column equals `value` (null matches null),
translated from `get_subset_by_search_key_value`. -/
def get_subset_by_search_key_value (d : DataFrame) (search_key : String) (value : Cell) :
    DataFrame :=
  { cols := d.cols, rows := d.rows.filter (fun r => cellAt d r search_key == value) }

/-- Result record of `validate_key_on_subset`. -/
structure KeyValidation where
  is_valid : Bool
  total_rows : Nat
  unique_count : Nat
  duplicate_count : Nat
  has_nulls : Bool
  null_counts : List (String × Nat)
  duplicate_rows : List Nat
deriving DecidableEq, Repr

/-- Projection of a row onto the ordered tuple of values of `key`. -/
def projRow (d : DataFrame) (key : List String) (r : List Cell) : List Cell :=
  key.map (cellAt d r)

/-- Projections of all rows onto `key` (pandas `df_subset[key]`). -/
def projections (d : DataFrame) (key : List String) : List (List Cell) :=
  d.rows.map (projRow d key)

/-- `len(df_subset[key].drop_duplicates())`: the number of distinct
projected tuples; for an empty `key` pandas hits the zero-column frame,
which counts as "empty", and `drop_duplicates` returns it unchanged, so
the count is the full row count. -/
def uniqueCombinations (d : DataFrame) (key : List String) : Nat :=
  if key.isEmpty then d.rows.length else (projections d key).dedup.length

/-- Body of `validate_key_on_subset` once every key column is known to
exist: null counting, distinct-tuple counting and the final verdict
`is_valid = (duplicate_count == 0) and (not has_nulls)`. -/
def validateTotal (d : DataFrame) (key : List String) : KeyValidation :=
  let total := d.rows.length
  let total_nulls := (key.map (colNulls d)).sum
  let has_nulls := decide (0 < total_nulls)
  let unique := uniqueCombinations d key
  let dup := total - unique
  let projs := projections d key
  { is_valid := decide (dup = 0) && !has_nulls
    total_rows := total
    unique_count := unique
    duplicate_count := dup
    has_nulls := has_nulls
    null_counts := key.dedup.filterMap
      (fun c => if 0 < colNulls d c then some (c, colNulls d c) else none)
    duplicate_rows :=
      if 0 < dup then (projs.enum.filter (fun p => 1 < projs.count p.2)).map (·.1)
      else [] }

/-- `validate_key_on_subset(df_subset, key_columns)`.  Accessing a column
absent from the frame raises `KeyError` in Python, modelled as `none`. -/
def validate_key_on_subset (d : DataFrame) (key : List String) : Option KeyValidation :=
  if key.all (fun c => d.cols.contains c) then some (validateTotal d key) else none

/-! ## Column classification (`finder_primary_key.classify_columns_by_variance`) -/

/-- Result of `classify_columns_by_variance`: classified column names,
with the protected base-key columns echoed back unchanged. -/
structure VarianceClassification where
  order_level : List String
  item_level : List String
  base_key : List String
deriving DecidableEq, Repr

/-- `classify_columns_by_variance(df_subset, base_key)`: every column not
in the base key goes to `order_level` when `nunique(dropna=False) <= 1`
and to `item_level` otherwise; both lists are returned `sorted`. -/
def classify_columns_by_variance (d : DataFrame) (base_key : List String) :
    VarianceClassification :=
  let nonBase := d.cols.filter (fun c => !(base_key.contains c))
  { order_level := pysort (nonBase.filter (fun c => colUnique d c ≤ 1))
    item_level := pysort (nonBase.filter (fun c => !(colUnique d c ≤ 1)))
    base_key := base_key }

/-! ## Column classification (`finder_column_level.classify_columns`) -/

/-- Per-column record built by `classify_columns` (the float percentage
fields of the Python dict carry no information beyond `null_count` and
`total_rows` and are omitted; sample fields are `none` when the Python
dict does not carry them for that category). -/
structure ColInfo where
  column : String
  unique_count : Nat
  total_rows : Nat
  null_count : Nat
  sample_value : Option Cell := none
  sample_values : Option (List Val) := none
deriving DecidableEq, Repr

/-- Result of `classify_columns`: protected / order-level / item-level
records, each list sorted by column name. -/
structure ColClassification where
  order_level : List ColInfo
  item_level : List ColInfo
  protectedCols : List ColInfo
deriving DecidableEq, Repr

/-- Basic fields shared by every category in `classify_columns`. -/
def mkColInfo (d : DataFrame) (c : String) : ColInfo :=
  { column := c
    unique_count := colUnique d c
    total_rows := d.rows.length
    null_count := colNulls d c }

/-- Python `sorted(..., key=lambda x: x['column'])` on column records. -/
def pysortBy (l : List ColInfo) : List ColInfo :=
  List.insertionSort (fun a b => a.column.data ≤ b.column.data) l

/-- `classify_columns(df_subset, protected_columns)`: protected columns are
listed separately with the first five non-null values as a sample; the
rest go to `order_level` (`nunique(dropna=False) <= 1`, sample = first
cell, possibly null) or `item_level` (first five distinct non-null values
as a sample).  Each list is sorted by column name. -/
def classify_columns (d : DataFrame) (protected_columns : List String) : ColClassification :=
  let protRecs := (d.cols.filter (fun c => protected_columns.contains c)).map
    (fun c => { mkColInfo d c with
      sample_values := some (((columnCells d c).filterMap id).take 5) })
  let nonProt := d.cols.filter (fun c => !(protected_columns.contains c))
  let orderRecs := (nonProt.filter (fun c => colUnique d c ≤ 1)).map
    (fun c => { mkColInfo d c with
      sample_value := some ((columnCells d c).headD none) })
  let itemRecs := (nonProt.filter (fun c => !(colUnique d c ≤ 1))).map
    (fun c => { mkColInfo d c with
      sample_values := some (((columnCells d c).filterMap id).eraseDups.take 5) })
  { order_level := pysortBy orderRecs
    item_level := pysortBy itemRecs
    protectedCols := pysortBy protRecs }

/-! ## Duplicate scope selector -/

/-- Ordering used by pandas to sort group keys: numbers and booleans by
numeric value, strings lexicographically (columns are homogeneous in
practice; across kinds we fix booleans/numbers before strings), and the
null group last, as `groupby(..., dropna=False)` places it. -/
def valLe : Val → Val → Bool
  | .str a, .str b => a.data ≤ b.data
  | .num a, .num b => a ≤ b
  | .bool a, .bool b => !a || b
  | .bool a, .num b => (if a then (1 : Int) else 0) ≤ b
  | .num a, .bool b => a ≤ (if b then (1 : Int) else 0)
  | .num _, .str _ => true
  | .str _, .num _ => false
  | .bool _, .str _ => true
  | .str _, .bool _ => false

/-- Group-key order with the null group last. -/
def cellLe : Cell → Cell → Bool
  | _, none => true
  | none, some _ => false
  | some a, some b => valLe a b

/-- `df.groupby(search_key, dropna=False).size()`: one entry per distinct
value of the column (null is its own group), keyed in ascending key order
with the null group last, each with its member count. -/
def groupbySize (col : List Cell) : List (Cell × Nat) :=
  (List.insertionSort (fun a b => cellLe a b = true) col.dedup).map
    (fun v => (v, col.count v))

/-- `find_most_duplicated_values(df, search_key, top_n)` from
`finder_column_level.py`: sort the group sizes descending and keep the
first `top_n` entries — every group participates, duplicated or not.
pandas' `Series.sort_values` defaults to an unstable quicksort, so the
relative order of equal-count groups is unspecified by the code; the
model necessarily fixes one order (a stable sort), and no theorem below
depends on which order ties take.  The scope column is assumed to exist
(a caller-level precondition; an absent column would raise in Python). -/
def find_most_duplicated_values (d : DataFrame) (search_key : String) (top_n : Nat) :
    List (Cell × Nat) :=
  let grouped := List.insertionSort (fun a b => b.2 ≤ a.2)
    (groupbySize (columnCells d search_key))
  grouped.take (min top_n grouped.length)

/-- Result record of `find_most_duplicated_search_key`. -/
structure TopGroup where
  value : Cell
  count : Nat
  row_indices : List Nat
deriving DecidableEq, Repr

/-- `Series.nlargest(1)` with `keep='first'`: the first entry of maximal
count, `none` on an empty series. -/
def nlargest1 : List (Cell × Nat) → Option (Cell × Nat)
  | [] => none
  | x :: xs => some (xs.foldl (fun best y => if best.2 < y.2 then y else best) x)

/-- `find_most_duplicated_search_key(df, search_key)` from
`finder_primary_key.py`: restrict the group sizes to counts above one,
return `None` when none remain, else the top-1 group with the positions
of its member rows. -/
def find_most_duplicated_search_key (d : DataFrame) (search_key : String) :
    Option TopGroup :=
  let grouped := groupbySize (columnCells d search_key)
  let duplicates := grouped.filter (fun g => 1 < g.2)
  match nlargest1 duplicates with
  | none => none
  | some (v, c) =>
    some { value := v, count := c
           row_indices := ((columnCells d search_key).enum.filter
             (fun p => p.2 == v)).map (·.1) }

/-! ## Row content hasher -/

/-- Python `str(val)` on a cell, at the `List Char` level: strings print
themselves, numbers and booleans their textual form, and a pandas null
prints as `nan`. -/
def pyStr : Cell → List Char
  | none => "nan".data
  | some (.str s) => s.data
  | some (.num n) => (toString n).data
  | some (.bool b) => if b then "True".data else "False".data

/-- `'|'.join(str(val) for val in row.values)` from `calculate_row_hash`. -/
def rowString (row : List Cell) : List Char :=
  List.intercalate ['|'] (row.map pyStr)

/-- `calculate_row_hash(row)`: the SHA-256 hex digest of the joined
string.  The digest itself is a fixed deterministic function of the
joined string; it is taken as a parameter, so every theorem below holds
for the real SHA-256 in particular. -/
def calculate_row_hash (digest : List Char → String) (row : List Cell) : String :=
  digest (rowString row)

/-! ## Minimal key reducer (`find_minimal_pk`) -/

/-- One entry of the iteration trace of `find_minimal_pk`: the seed
validation record, the null-rescue record, or one committed removal. -/
inductive IterRec where
  | seed (columns : List String) (count : Nat) (is_valid : Bool)
      (unique_count duplicate_count : Nat)
  | nullRescue (removedCount : Nat) (columns : List String) (count : Nat) (is_valid : Bool)
  | removedCol (col : String) (columns : List String) (count : Nat) (is_valid : Bool)
deriving DecidableEq, Repr

/-- The column list recorded in a trace entry. -/
def IterRec.columns : IterRec → List String
  | .seed cs _ _ _ _ => cs
  | .nullRescue _ cs _ _ => cs
  | .removedCol _ cs _ _ => cs

/-- Result record of `find_minimal_pk`. -/
structure MinimalKeyResult where
  minimal_key : List String
  is_valid : Bool
  added_columns : List String
  removed_columns : List String
  iterations : List IterRec
deriving DecidableEq, Repr

/-- Validity of a key already known to refer to existing columns (every
call below is on a sublist of a key whose validation has succeeded, so
the Python code cannot raise here). -/
def isValidKey (d : DataFrame) (key : List String) : Bool :=
  (validateTotal d key).is_valid

/-- One scan of the reduction loop: the first column of `cur` outside the
base key whose removal leaves a valid key (`for col in current_key` with
`break` on the first successful removal). -/
def scanRemove (d : DataFrame) (base_key cur : List String) : Option String :=
  cur.find? (fun col =>
    !(base_key.contains col) && isValidKey d (cur.filter (fun c => c != col)))

/-- The `while improved` reduction loop: repeatedly commit the first
successful removal and restart the scan; the fuel (initially the key
length) bounds the number of removals, each of which strictly shortens
the key, so it never runs out before the scan is exhausted. -/
def reduceLoop (d : DataFrame) (base_key : List String) :
    Nat → List String → List String × List String × List IterRec
  | 0, cur => (cur, [], [])
  | fuel + 1, cur =>
    match scanRemove d base_key cur with
    | none => (cur, [], [])
    | some col =>
      let cur' := cur.filter (fun c => c != col)
      let red := reduceLoop d base_key fuel cur'
      (red.1, col :: red.2.1, IterRec.removedCol col cur' cur'.length true :: red.2.2)

/-- `find_minimal_pk(df_subset, base_key, item_level_columns)`:
seed with `base_key + item_level_columns`; on a seed failure with nulls
but no duplicates, drop exactly the null-bearing columns and revalidate
once; on a duplicate failure, return the failure immediately; otherwise
greedily reduce.  `none` models the `KeyError` Python raises when a key
column is absent from the frame. -/
def find_minimal_pk (d : DataFrame) (base_key item_level_columns : List String) :
    Option MinimalKeyResult :=
  let cur := base_key ++ item_level_columns
  match validate_key_on_subset d cur with
  | none => none
  | some v =>
    let it0 := IterRec.seed cur cur.length v.is_valid v.unique_count v.duplicate_count
    if v.is_valid then
      let red := reduceLoop d base_key cur.length cur
      some { minimal_key := red.1, is_valid := true
             added_columns := red.1.filter (fun c => item_level_columns.contains c)
             removed_columns := red.2.1, iterations := it0 :: red.2.2 }
    else if v.has_nulls then
      if v.duplicate_count = 0 then
        let nullCols := v.null_counts.map (·.1)
        let curNoNull := cur.filter (fun c => !(nullCols.contains c))
        match validate_key_on_subset d curNoNull with
        | none => none
        | some v2 =>
          if v2.is_valid then
            let it1 := IterRec.nullRescue nullCols.length curNoNull curNoNull.length true
            let red := reduceLoop d base_key curNoNull.length curNoNull
            some { minimal_key := red.1, is_valid := true
                   added_columns := red.1.filter (fun c => item_level_columns.contains c)
                   removed_columns := red.2.1, iterations := it0 :: it1 :: red.2.2 }
          else
            some { minimal_key := curNoNull, is_valid := false
                   added_columns := curNoNull.filter (fun c => item_level_columns.contains c)
                   removed_columns := nullCols, iterations := [it0] }
      else
        some { minimal_key := cur, is_valid := false
               added_columns := item_level_columns
               removed_columns := [], iterations := [it0] }
    else
      some { minimal_key := cur, is_valid := false
             added_columns := item_level_columns
             removed_columns := [], iterations := [it0] }

/-! ## Concrete datasets used by individual claims -/

/-- One row of the spec's end-to-end scenario dataset. -/
def scenarioRow (o : String) (i q : Int) (n : String) : List Cell :=
  [some (.str o), some (.num i), some (.num q), some (.str n)]

/-- The five-row scenario dataset `(OrderID, ItemID, Qty, Note)`. -/
def scenarioDf : DataFrame :=
  { cols := ["OrderID", "ItemID", "Qty", "Note"]
    rows := [scenarioRow "A1" 100 2 "x", scenarioRow "A1" 100 2 "x",
             scenarioRow "A1" 101 1 "y", scenarioRow "A1" 102 5 "y",
             scenarioRow "B2" 200 1 "z"] }

/-- The scenario dataset after exact-duplicate-row removal. -/
def scenarioDedup : DataFrame := drop_duplicates scenarioDf

/-- The scenario dataset scoped to `OrderID = A1`. -/
def scenarioSubset : DataFrame :=
  get_subset_by_search_key_value scenarioDedup "OrderID" (some (.str "A1"))

/-- Single row whose base-key column `A` is null while `B` is not:
the null-rescue branch of `find_minimal_pk` drops `A`. -/
def c1df : DataFrame := { cols := ["A", "B"], rows := [[none, some (.num 1)]] }

/-- Two rows with distinct `A` values and an all-null column `B`. -/
def c2df : DataFrame :=
  { cols := ["A", "B"], rows := [[some (.num 1), none], [some (.num 2), none]] }

/-- Two rows with distinct values in both columns (a valid two-column key). -/
def c2wdf : DataFrame :=
  { cols := ["A", "B"]
    rows := [[some (.num 1), some (.num 3)], [some (.num 2), some (.num 4)]] }

/-- Scope column holding `b` three times, `a` twice and `c` once. -/
def c4df : DataFrame :=
  { cols := ["k"]
    rows := [[some (.str "b")], [some (.str "b")], [some (.str "b")],
             [some (.str "a")], [some (.str "a")], [some (.str "c")]] }

/-- One row, one column named `A` (the base key `X` is absent). -/
def c7df : DataFrame := { cols := ["A"], rows := [[some (.num 1)]] }

/-- Two exactly equal rows. -/
def c7wdf : DataFrame :=
  { cols := ["A"], rows := [[some (.num 1)], [some (.num 1)]] }

/-! ## Claims -/

/-- C5: on the five-row scenario dataset, exact-duplicate-row removal
leaves 4 rows; the most duplicated `OrderID` value is `A1` with 3 rows;
classification with base key `[OrderID]` makes `ItemID`, `Note`, `Qty`
item-level; and `find_minimal_pk` seeded with `OrderID` plus the
item-level columns returns `is_valid = true`,
`minimal_key = [OrderID, Qty]`, `added_columns = [Qty]` and
`removed_columns = [ItemID, Note]` with `ItemID` removed before `Note`. -/
theorem claim_C5_scenario :
    scenarioDedup.rows.length = 4
    ∧ (find_most_duplicated_search_key scenarioDedup "OrderID").map
        (fun g => (g.value, g.count)) = some (some (.str "A1"), 3)
    ∧ scenarioSubset.rows.length = 3
    ∧ classify_columns_by_variance scenarioSubset ["OrderID"]
        = ⟨[], ["ItemID", "Note", "Qty"], ["OrderID"]⟩
    ∧ (find_minimal_pk scenarioSubset ["OrderID"] ["ItemID", "Note", "Qty"]).map
        (fun r => (r.is_valid, r.minimal_key, r.added_columns, r.removed_columns))
        = some (true, ["OrderID", "Qty"], ["Qty"], ["ItemID", "Note"]) := by
  decide

/-- C8 counterexample: on a subset of two exactly equal rows the empty
column list is reported **valid** (`is_valid = true`), although the claim
says the empty key is valid only when the subset has at most one row.
(pandas regards the zero-column projection as an empty frame and returns
it unchanged from `drop_duplicates`, so the duplicate count is 0.) -/
theorem claim_C8_counterexample :
    c7wdf.rows.length = 2
    ∧ (validate_key_on_subset c7wdf []).map (·.is_valid) = some true := by
  decide

/-- C8 (amended): validating the empty column list reports
`is_valid = true` on **every** subset, whatever its row count: the
zero-column projection passes through `drop_duplicates` unchanged, so the
duplicate count is always 0, and there is no participating column that
could carry a null. -/
theorem claim_C8_empty_key_always_valid (d : DataFrame) :
    (validate_key_on_subset d []).map (·.is_valid) = some true := by
  simp [validate_key_on_subset, validateTotal, uniqueCombinations]

/-- Joining a one-element list is the element itself. -/
theorem intercalate_pipe_singleton (a : List Char) : List.intercalate ['|'] [a] = a := by
  simp [List.intercalate]

/-- Unfolding one step of `'|'.join` on at least two pieces. -/
theorem intercalate_pipe_cons (a b : List Char) (l : List (List Char)) :
    List.intercalate ['|'] (a :: b :: l) = a ++ '|' :: List.intercalate ['|'] (b :: l) := by
  simp [List.intercalate, List.intersperse_cons_cons]

/-- If neither prefix contains the delimiter, the text before the first
delimiter determines the split uniquely. -/
theorem pipe_prefix_eq (a : List Char) : ∀ (b r r' : List Char), '|' ∉ a → '|' ∉ b →
    a ++ '|' :: r = b ++ '|' :: r' → a = b ∧ r = r' := by
  induction a with
  | nil =>
    intro b r r' _ hb h
    cases b with
    | nil => simpa using h
    | cons c bs =>
      simp only [List.nil_append, List.cons_append, List.cons.injEq] at h
      exact absurd (h.1 ▸ List.mem_cons_self c bs) hb
  | cons c as ih =>
    intro b r r' ha hb h
    cases b with
    | nil =>
      simp only [List.cons_append, List.nil_append, List.cons.injEq] at h
      exact absurd (h.1 ▸ List.mem_cons_self c as) ha
    | cons d bs =>
      simp only [List.cons_append, List.cons.injEq] at h
      obtain ⟨rfl, h⟩ := h
      have := ih bs r r' (fun hm => ha (List.mem_cons_of_mem _ hm))
        (fun hm => hb (List.mem_cons_of_mem _ hm)) h
      exact ⟨by rw [this.1], this.2⟩

/-- `'|'.join` is injective on equal-length families of delimiter-free
pieces. -/
theorem intercalate_pipe_injOn : ∀ (xs ys : List (List Char)), xs.length = ys.length →
    (∀ s ∈ xs, '|' ∉ s) → (∀ s ∈ ys, '|' ∉ s) →
    List.intercalate ['|'] xs = List.intercalate ['|'] ys → xs = ys := by
  intro xs
  induction xs with
  | nil =>
    intro ys hlen _ _ _
    cases ys with
    | nil => rfl
    | cons b bs => simp at hlen
  | cons a as ih =>
    intro ys hlen hx hy h
    cases ys with
    | nil => simp at hlen
    | cons b bs =>
      cases as with
      | nil =>
        cases bs with
        | nil =>
          rw [intercalate_pipe_singleton, intercalate_pipe_singleton] at h
          rw [h]
        | cons b2 bs2 => simp at hlen
      | cons a2 as2 =>
        cases bs with
        | nil => simp at hlen
        | cons b2 bs2 =>
          rw [intercalate_pipe_cons, intercalate_pipe_cons] at h
          obtain ⟨hab, ht⟩ := pipe_prefix_eq a (b) _ _
            (hx a (List.mem_cons_self a _)) (hy b (List.mem_cons_self b _)) h
          have htail := ih (b2 :: bs2) (by simpa using hlen)
            (fun s hs => hx s (List.mem_cons_of_mem _ hs))
            (fun s hs => hy s (List.mem_cons_of_mem _ hs)) ht
          rw [hab, htail]

/-- C9 counterexample: the join delimiter `|` does appear unescaped
inside Python's stringified values: the single-cell row `["a|b"]` and the
two-cell row `["a", "b"]` are different value sequences with the same
joined string, hence the same digest. -/
theorem claim_C9_counterexample :
    rowString [some (.str "a|b")] = rowString [some (.str "a"), some (.str "b")]
    ∧ ([some (Val.str "a|b")] : List Cell) ≠ [some (.str "a"), some (.str "b")]
    ∧ '|' ∈ pyStr (some (.str "a|b")) := by
  decide

/-- C9 (amended): `calculate_row_hash` is deterministic — any two rows
with equal stringified value sequences produce equal digests, whatever
characters the values contain — while the delimiter guarantee must be
weakened: Python's `str` performs no escaping, so the joined strings of
two different rows can coincide; they cannot coincide when the rows have
equal length and delimiter-free stringified values. -/
theorem claim_C9_hash_contract (digest : List Char → String) (r1 r2 : List Cell) :
    (r1.map pyStr = r2.map pyStr →
      calculate_row_hash digest r1 = calculate_row_hash digest r2)
    ∧ (r1.length = r2.length →
      (∀ v ∈ r1, '|' ∉ pyStr v) → (∀ v ∈ r2, '|' ∉ pyStr v) →
      rowString r1 = rowString r2 → r1.map pyStr = r2.map pyStr) := by
  constructor
  · intro h
    unfold calculate_row_hash rowString
    rw [h]
  · intro hlen h1 h2 h
    apply intercalate_pipe_injOn _ _ (by simpa using hlen) ?_ ?_ h
    · intro s hs
      obtain ⟨v, hv, rfl⟩ := List.mem_map.mp hs
      exact h1 v hv
    · intro s hs
      obtain ⟨v, hv, rfl⟩ := List.mem_map.mp hs
      exact h2 v hv

/-- Witness for C9 at the concrete row `["a|b"]`, whose stringified value
contains the delimiter — the determinism half applies to it
unconditionally — with the digest instantiated to `String.mk`. -/
theorem claim_C9_witness :
    (([some (Val.str "a|b")] : List Cell).map pyStr
        = ([some (Val.str "a|b")] : List Cell).map pyStr →
      calculate_row_hash String.mk [some (Val.str "a|b")]
        = calculate_row_hash String.mk [some (Val.str "a|b")])
    ∧ (([some (Val.str "a|b")] : List Cell).length
        = ([some (Val.str "a|b")] : List Cell).length →
      (∀ v ∈ ([some (Val.str "a|b")] : List Cell), '|' ∉ pyStr v) →
      (∀ v ∈ ([some (Val.str "a|b")] : List Cell), '|' ∉ pyStr v) →
      rowString [some (Val.str "a|b")] = rowString [some (Val.str "a|b")] →
      ([some (Val.str "a|b")] : List Cell).map pyStr
        = ([some (Val.str "a|b")] : List Cell).map pyStr) :=
  claim_C9_hash_contract String.mk _ _

/-- Characterisation of the validator verdict on a non-empty key. -/
theorem validateTotal_is_valid_iff (d : DataFrame) (key : List String) (hne : key ≠ []) :
    (validateTotal d key).is_valid = true ↔
      (d.rows.length - (projections d key).dedup.length = 0
        ∧ ∀ c ∈ key, colNulls d c = 0) := by
  simp only [validateTotal, uniqueCombinations, List.isEmpty_iff, hne, if_false,
    Bool.and_eq_true, decide_eq_true_iff, Bool.not_eq_true', decide_eq_false_iff_not,
    Nat.not_lt, Nat.le_zero]
  rw [List.sum_eq_zero_iff]
  simp

/-- C3: for a dataset subset and a non-empty column list (whose columns
exist, else Python raises), `is_valid = true` exactly when the duplicate
count — total rows minus distinct projected tuples — is zero and no
participating column contains any null. -/
theorem claim_C3_is_valid_iff (d : DataFrame) (key : List String) (v : KeyValidation)
    (hne : key ≠ []) (h : validate_key_on_subset d key = some v) :
    v.is_valid = true ↔
      (d.rows.length - (projections d key).dedup.length = 0
        ∧ ∀ c ∈ key, colNulls d c = 0) := by
  unfold validate_key_on_subset at h
  split at h
  · cases h
    exact validateTotal_is_valid_iff d key hne
  · exact absurd h (by simp)

/-- Witness for C3 at a two-row subset where column `A` is a valid key. -/
theorem claim_C3_witness :
    (validateTotal c2wdf ["A"]).is_valid = true ↔
      (c2wdf.rows.length - (projections c2wdf ["A"]).dedup.length = 0
        ∧ ∀ c ∈ ["A"], colNulls c2wdf c = 0) :=
  claim_C3_is_valid_iff c2wdf ["A"] _ (by decide) (by rfl)

/-- C6: both classifiers place each existing non-protected column in
`order_level` exactly when its distinct-value count (null counted as one
value; 0 in the zero-row case) is at most 1, and in `item_level` exactly
when it exceeds 1 — a disjoint, total partition of the non-protected
columns — while protected columns are listed separately regardless of
their cardinality. -/
theorem claim_C6_partition (d : DataFrame) (prot base : List String) (c : String) :
    ((c ∈ (classify_columns d prot).order_level.map ColInfo.column ↔
        c ∈ d.cols ∧ c ∉ prot ∧ colUnique d c ≤ 1)
      ∧ (c ∈ (classify_columns d prot).item_level.map ColInfo.column ↔
        c ∈ d.cols ∧ c ∉ prot ∧ 1 < colUnique d c)
      ∧ (c ∈ (classify_columns d prot).protectedCols.map ColInfo.column ↔
        c ∈ d.cols ∧ c ∈ prot)
      ∧ ¬(c ∈ (classify_columns d prot).order_level.map ColInfo.column
          ∧ c ∈ (classify_columns d prot).item_level.map ColInfo.column)
      ∧ (c ∈ d.cols → c ∉ prot →
          c ∈ (classify_columns d prot).order_level.map ColInfo.column
          ∨ c ∈ (classify_columns d prot).item_level.map ColInfo.column))
    ∧ ((c ∈ (classify_columns_by_variance d base).order_level ↔
        c ∈ d.cols ∧ c ∉ base ∧ colUnique d c ≤ 1)
      ∧ (c ∈ (classify_columns_by_variance d base).item_level ↔
        c ∈ d.cols ∧ c ∉ base ∧ 1 < colUnique d c)
      ∧ ¬(c ∈ (classify_columns_by_variance d base).order_level
          ∧ c ∈ (classify_columns_by_variance d base).item_level)
      ∧ (c ∈ d.cols → c ∉ base →
          c ∈ (classify_columns_by_variance d base).order_level
          ∨ c ∈ (classify_columns_by_variance d base).item_level)) := by
  have horder : c ∈ (classify_columns d prot).order_level.map ColInfo.column ↔
      c ∈ d.cols ∧ c ∉ prot ∧ colUnique d c ≤ 1 := by
    simp [classify_columns, pysortBy, mkColInfo, List.mem_insertionSort, List.mem_filter,
      List.contains]
    tauto
  have hitem : c ∈ (classify_columns d prot).item_level.map ColInfo.column ↔
      c ∈ d.cols ∧ c ∉ prot ∧ 1 < colUnique d c := by
    simp [classify_columns, pysortBy, mkColInfo, List.mem_insertionSort, List.mem_filter,
      List.contains]
    tauto
  have hprot : c ∈ (classify_columns d prot).protectedCols.map ColInfo.column ↔
      c ∈ d.cols ∧ c ∈ prot := by
    simp [classify_columns, pysortBy, mkColInfo, List.mem_insertionSort, List.mem_filter,
      List.contains]
  have horder' : c ∈ (classify_columns_by_variance d base).order_level ↔
      c ∈ d.cols ∧ c ∉ base ∧ colUnique d c ≤ 1 := by
    simp [classify_columns_by_variance, pysort, List.mem_insertionSort, List.mem_filter,
      List.contains]
    tauto
  have hitem' : c ∈ (classify_columns_by_variance d base).item_level ↔
      c ∈ d.cols ∧ c ∉ base ∧ 1 < colUnique d c := by
    simp [classify_columns_by_variance, pysort, List.mem_insertionSort, List.mem_filter,
      List.contains, Nat.lt_iff_add_one_le, Nat.not_le]
    tauto
  refine ⟨⟨horder, hitem, hprot, ?_, ?_⟩, horder', hitem', ?_, ?_⟩
  · rintro ⟨h1, h2⟩
    rw [horder] at h1
    rw [hitem] at h2
    omega
  · intro hc hp
    rw [horder, hitem]
    by_cases hu : colUnique d c ≤ 1
    · exact Or.inl ⟨hc, hp, hu⟩
    · exact Or.inr ⟨hc, hp, by omega⟩
  · rintro ⟨h1, h2⟩
    rw [horder'] at h1
    rw [hitem'] at h2
    omega
  · intro hc hp
    rw [horder', hitem']
    by_cases hu : colUnique d c ≤ 1
    · exact Or.inl ⟨hc, hp, hu⟩
    · exact Or.inr ⟨hc, hp, by omega⟩

/-- The reduction loop only ever removes columns outside the base key, so
base-key membership is preserved. -/
theorem reduceLoop_keeps_base (d : DataFrame) (base : List String) :
    ∀ (fuel : Nat) (cur : List String) (c : String), c ∈ base → c ∈ cur →
      c ∈ (reduceLoop d base fuel cur).1 := by
  intro fuel
  induction fuel with
  | zero =>
    intro cur c _ hc
    simpa [reduceLoop] using hc
  | succ n ih =>
    intro cur c hb hc
    unfold reduceLoop
    cases hscan : scanRemove d base cur with
    | none => simpa using hc
    | some col =>
      have hcol := List.find?_some hscan
      have hnb : col ∉ base := by
        simp only [Bool.and_eq_true, Bool.not_eq_true', List.contains] at hcol
        simpa using hcol.1
      have hne : c ≠ col := fun h => hnb (h ▸ hb)
      simpa using ih _ c hb (List.mem_filter.mpr ⟨hc, by simpa using hne⟩)

/-- Every column recorded in `null_counts` really carries a null. -/
theorem mem_null_counts_pos (d : DataFrame) (key : List String) (x : String)
    (hx : x ∈ (validateTotal d key).null_counts.map Prod.fst) : 0 < colNulls d x := by
  simp only [validateTotal, List.mem_map, List.mem_filterMap] at hx
  obtain ⟨⟨c, n⟩, ⟨a, _, ha⟩, rfl⟩ := hx
  by_cases h : 0 < colNulls d a
  · simp only [h, if_pos] at ha
    cases ha
    exact h
  · simp [h] at ha

/-- C1 counterexample: with base key `[A]` and item column `[B]` on a
one-row subset whose `A` value is null, the null-rescue branch drops the
base-key column `A` and the subsequent reduction empties the key: the
returned `minimal_key` is `[]`, which does not contain `A`. -/
theorem claim_C1_counterexample :
    "A" ∈ (["A"] : List String)
    ∧ (find_minimal_pk c1df ["A"] ["B"]).map (·.minimal_key) = some []
    ∧ (find_minimal_pk c1df ["A"] ["B"]).all
        (fun r => r.minimal_key.contains "A") = false := by
  decide

/-- C1 (amended): the result of `find_minimal_pk` retains every base-key
column **provided no base-key column contains a null** in the subset;
the reduction loop never removes base-key columns, but the null-rescue
branch drops every null-bearing column, base key included. -/
theorem claim_C1_base_retained (d : DataFrame) (base item : List String) (c : String)
    (hc : c ∈ base) (hnn : ∀ b ∈ base, colNulls d b = 0) :
    (find_minimal_pk d base item).all (fun r => r.minimal_key.contains c) = true := by
  have hcur : c ∈ base ++ item := List.mem_append_left _ hc
  have hmem_contains : ∀ (l : List String), c ∈ l → l.contains c = true := by
    intro l hl
    simpa [List.contains] using hl
  simp only [find_minimal_pk]
  split
  · rfl
  next v hv =>
    have hvt : v = validateTotal d (base ++ item) := by
      unfold validate_key_on_subset at hv
      split at hv
      · exact (Option.some.inj hv).symm
      · exact absurd hv (by simp)
    have hnonull : ∀ x ∈ v.null_counts.map (fun p => p.1), x ≠ c := by
      intro x hx
      rw [hvt] at hx
      intro hxc
      have := mem_null_counts_pos d (base ++ item) x (by simpa using hx)
      rw [hxc, hnn c hc] at this
      exact absurd this (by omega)
    have hcnonull : c ∈ (base ++ item).filter
        (fun x => !((v.null_counts.map (fun p => p.1)).contains x)) := by
      refine List.mem_filter.mpr ⟨hcur, ?_⟩
      simp only [Bool.not_eq_true', List.contains, List.elem_eq_mem,
        decide_eq_false_iff_not]
      intro hmem
      exact hnonull c hmem rfl
    split
    · simp only [Option.all]
      exact hmem_contains _ (reduceLoop_keeps_base d base _ _ c hc hcur)
    · split
      · split
        · split
          · rfl
          · split
            · simp only [Option.all]
              exact hmem_contains _ (reduceLoop_keeps_base d base _ _ c hc hcnonull)
            · simp only [Option.all]
              exact hmem_contains _ hcnonull
        · simp only [Option.all]
          exact hmem_contains _ hcur
      · simp only [Option.all]
        exact hmem_contains _ hcur

/-- Witness for C1 on a subset whose base-key column `A` is null-free
(`B` is all null, so the null-rescue path still runs): `A` survives. -/
theorem claim_C1_witness :
    (find_minimal_pk c2df ["A"] ["B"]).all
      (fun r => r.minimal_key.contains "A") = true :=
  claim_C1_base_retained c2df ["A"] ["B"] "A" (by decide) (by decide)

/-- `validate_key_on_subset` does not raise when every key column exists. -/
theorem validate_isSome (d : DataFrame) (key : List String)
    (h : ∀ c ∈ key, c ∈ d.cols) :
    validate_key_on_subset d key = some (validateTotal d key) := by
  unfold validate_key_on_subset
  rw [if_pos]
  simp only [List.all_eq_true, List.contains, List.elem_eq_mem, decide_eq_true_eq]
  exact h

/-- C7 counterexample: with a base-key column absent from the subset,
`find_minimal_pk` raises a `KeyError` (modelled as `none`) rather than
returning a result, so "for every input, find_minimal_pk never raises"
fails. -/
theorem claim_C7_counterexample :
    "X" ∉ c7df.cols ∧ find_minimal_pk c7df ["X"] [] = none := by
  decide

/-- C7 (amended): whenever every base-key and item-level column exists in
the subset, `find_minimal_pk` returns a result (never raises); and when
the seed validation fails with a non-zero duplicate count it terminates
immediately with `is_valid = false`, the seed as `minimal_key`, and no
columns removed. -/
theorem claim_C7_no_raise_and_duplicate_failure (d : DataFrame) (base item : List String)
    (hcols : ∀ c ∈ base ++ item, c ∈ d.cols) :
    (find_minimal_pk d base item).isSome = true
    ∧ (∀ v, validate_key_on_subset d (base ++ item) = some v →
        v.is_valid = false → v.duplicate_count ≠ 0 →
        find_minimal_pk d base item = some
          { minimal_key := base ++ item, is_valid := false
            added_columns := item, removed_columns := []
            iterations := [.seed (base ++ item) (base ++ item).length v.is_valid
              v.unique_count v.duplicate_count] }) := by
  constructor
  · simp only [find_minimal_pk]
    split
    next hnone =>
      have h := validate_isSome d (base ++ item) hcols
      rw [hnone] at h
      exact absurd h (by simp)
    next v hv =>
      split
      · rfl
      · split
        · split
          · split
            next hnone2 =>
              exfalso
              have hsub : ∀ x ∈ (base ++ item).filter
                  (fun c => !((v.null_counts.map (fun p => p.1)).contains c)),
                  x ∈ d.cols :=
                fun x hx => hcols x (List.mem_of_mem_filter hx)
              have h2 := validate_isSome d _ hsub
              rw [hnone2] at h2
              exact absurd h2 (by simp)
            next v2 hv2 =>
              split
              · rfl
              · rfl
          · rfl
        · rfl
  · intro v hv hinv hdup
    simp only [find_minimal_pk, hv]
    rw [if_neg (by simp [hinv])]
    by_cases h2 : v.has_nulls = true
    · rw [if_pos h2, if_neg hdup]
    · rw [if_neg h2]

/-- Witness for C7 on two exactly duplicated rows: the reducer returns
the immediate duplicate-failure record. -/
theorem claim_C7_witness :
    (find_minimal_pk c7wdf ["A"] []).isSome = true
    ∧ find_minimal_pk c7wdf ["A"] [] = some
        { minimal_key := ["A"], is_valid := false, added_columns := []
          removed_columns := [], iterations := [.seed ["A"] 1 false 1 1] } := by
  have h := claim_C7_no_raise_and_duplicate_failure c7wdf ["A"] [] (by decide)
  exact ⟨h.1, h.2 (validateTotal c7wdf ["A"]) (by rfl) (by decide) (by decide)⟩

/-- A zero duplicate count on a non-empty key means the projected tuples
are pairwise distinct. -/
theorem projections_nodup_of_sub_zero (d : DataFrame) (key : List String)
    (h : d.rows.length - (projections d key).dedup.length = 0) :
    (projections d key).Nodup := by
  have hlen : (projections d key).dedup.length ≤ (projections d key).length :=
    (List.dedup_sublist _).length_le
  have hlen2 : (projections d key).length = d.rows.length := by
    simp [projections]
  have hl : (projections d key).dedup.length = (projections d key).length := by omega
  have heq := (List.dedup_sublist (projections d key)).eq_of_length hl
  rw [← heq]
  exact List.nodup_dedup _

/-- Distinctness transfers along projections that identify at least as
much: if `f`-images are distinct and `f`-equality implies `g`-equality
backwards, `g`… formally: whenever `f a = f b` forces `g a = g b`,
distinctness of the `g`-images yields distinctness of the `f`-images. -/
theorem nodup_map_of_imp {α β γ : Type} {f : α → β} {g : α → γ} {l : List α}
    (himp : ∀ a b, f a = f b → g a = g b) :
    (l.map g).Nodup → (l.map f).Nodup := by
  induction l with
  | nil => intro _; simp
  | cons a l ih =>
    intro h
    simp only [List.map_cons, List.nodup_cons, List.mem_map, not_exists] at h ⊢
    obtain ⟨h1, h2⟩ := h
    refine ⟨?_, ih h2⟩
    rintro b ⟨hb, hfb⟩
    exact h1 b ⟨hb, himp b a hfb⟩

/-- Agreement of rows on a superset of columns restricts to the subset. -/
theorem projRow_eq_of_subset (d : DataFrame) (S T : List String)
    (hsub : ∀ c ∈ S, c ∈ T) {r1 r2 : List Cell}
    (h : projRow d T r1 = projRow d T r2) : projRow d S r1 = projRow d S r2 := by
  unfold projRow at h ⊢
  rw [List.map_inj_left] at h ⊢
  exact fun c hc => h c (hsub c hc)

/-- C2 counterexample: `S = [A]` is a valid key on the two-row subset,
`T = [A, B] ⊇ S`, yet `T` is invalid because the added column `B` is all
null — monotonicity fails as soon as an added column carries a null. -/
theorem claim_C2_counterexample :
    (∀ c ∈ (["A"] : List String), c ∈ (["A", "B"] : List String))
    ∧ (validate_key_on_subset c2df ["A"]).map (·.is_valid) = some true
    ∧ (validate_key_on_subset c2df ["A", "B"]).map (·.is_valid) = some false := by
  decide

/-- C2 (amended): validity is monotone under adding **null-free**
columns: if the non-empty key `S` is valid and `T ⊇ S` (drawn from the
subset's columns) adds only columns without nulls, then `T` is valid.
(Non-emptiness of `S` matters: the empty key is valid on any subset by
the zero-column short-circuit, while a one-column superset can be
duplicated.) -/
theorem claim_C2_monotone (d : DataFrame) (S T : List String)
    (hS_ne : S ≠ []) (hsub : ∀ c ∈ S, c ∈ T) (hTcols : ∀ c ∈ T, c ∈ d.cols)
    (hnull : ∀ c ∈ T, c ∉ S → colNulls d c = 0)
    (hvalid : (validate_key_on_subset d S).map (·.is_valid) = some true) :
    (validate_key_on_subset d T).map (·.is_valid) = some true := by
  have hScols : ∀ c ∈ S, c ∈ d.cols := fun c hc => hTcols c (hsub c hc)
  rw [validate_isSome d S hScols] at hvalid
  simp only [Option.map_some', Option.some.injEq] at hvalid
  rw [validateTotal_is_valid_iff d S hS_ne] at hvalid
  obtain ⟨hdupS, hnullS⟩ := hvalid
  have hT_ne : T ≠ [] := by
    cases S with
    | nil => exact absurd rfl hS_ne
    | cons s ss =>
      intro h
      have := hsub s (List.mem_cons_self s ss)
      rw [h] at this
      exact absurd this (List.not_mem_nil s)
  rw [validate_isSome d T hTcols]
  simp only [Option.map_some', Option.some.injEq]
  rw [validateTotal_is_valid_iff d T hT_ne]
  constructor
  · have hndS := projections_nodup_of_sub_zero d S hdupS
    have hndT : (projections d T).Nodup := by
      unfold projections at hndS ⊢
      exact nodup_map_of_imp (fun a b => projRow_eq_of_subset d S T hsub) hndS
    have hself : (projections d T).dedup = projections d T := List.dedup_eq_self.mpr hndT
    rw [hself]
    simp [projections]
  · intro c hcT
    by_cases hcS : c ∈ S
    · exact hnullS c hcS
    · exact hnull c hcT hcS

/-- Witness for C2 with `S = [A]`, `T = [A, B]` on a subset where both
columns are null-free and `A` alone is already unique. -/
theorem claim_C2_witness :
    (validate_key_on_subset c2wdf ["A", "B"]).map (·.is_valid) = some true :=
  claim_C2_monotone c2wdf ["A"] ["A", "B"] (by decide) (by decide) (by decide)
    (by decide) (by decide)

/-- An entry of the group-size table is exactly a column value paired
with its number of occurrences. -/
theorem mem_groupbySize (col : List Cell) (p : Cell × Nat) :
    p ∈ groupbySize col ↔ p.1 ∈ col ∧ p.2 = col.count p.1 := by
  obtain ⟨a, b⟩ := p
  unfold groupbySize
  simp only [List.mem_map, List.mem_insertionSort, List.mem_dedup]
  constructor
  · rintro ⟨v, hv, h⟩
    obtain ⟨rfl, rfl⟩ := Prod.mk.injEq .. |>.mp h
    exact ⟨hv, rfl⟩
  · rintro ⟨h1, rfl⟩
    exact ⟨a, h1, rfl⟩

/-- The group-size table has one entry per distinct value. -/
theorem length_groupbySize (col : List Cell) :
    (groupbySize col).length = col.dedup.length := by
  simp [groupbySize]

/-- The running maximum computed by `nlargest1`'s fold stays in the list
(or at the seed) and dominates the seed and every element. -/
theorem foldl_pickMax_spec (xs : List (Cell × Nat)) :
    ∀ x : Cell × Nat,
      (xs.foldl (fun best y => if best.2 < y.2 then y else best) x = x
        ∨ xs.foldl (fun best y => if best.2 < y.2 then y else best) x ∈ xs)
      ∧ x.2 ≤ (xs.foldl (fun best y => if best.2 < y.2 then y else best) x).2
      ∧ ∀ y ∈ xs, y.2 ≤ (xs.foldl (fun best y => if best.2 < y.2 then y else best) x).2 := by
  induction xs with
  | nil =>
    intro x
    exact ⟨Or.inl rfl, Nat.le_refl _, by simp⟩
  | cons z zs ih =>
    intro x
    simp only [List.foldl_cons]
    obtain ⟨hmem, hx, hall⟩ := ih (if x.2 < z.2 then z else x)
    refine ⟨?_, ?_, ?_⟩
    · rcases hmem with h | h
      · rw [h]
        split
        · exact Or.inr (List.mem_cons_self z zs)
        · exact Or.inl rfl
      · exact Or.inr (List.mem_cons_of_mem _ h)
    · refine Nat.le_trans ?_ hx
      split
      next h => exact Nat.le_of_lt h
      next h => exact Nat.le_refl _
    · intro y hy
      rcases List.mem_cons.mp hy with rfl | hy
      · refine Nat.le_trans ?_ hx
        split
        next h => exact Nat.le_refl _
        next h => exact Nat.le_of_not_lt h
      · exact hall y hy

/-- `nlargest(1)` is empty exactly on the empty series. -/
theorem nlargest1_none_iff (l : List (Cell × Nat)) : nlargest1 l = none ↔ l = [] := by
  cases l <;> simp [nlargest1]

/-- `nlargest(1)` returns an element of the series of maximal count. -/
theorem nlargest1_spec (l : List (Cell × Nat)) (x : Cell × Nat)
    (h : nlargest1 l = some x) : x ∈ l ∧ ∀ y ∈ l, y.2 ≤ x.2 := by
  cases l with
  | nil => simp [nlargest1] at h
  | cons a as =>
    simp only [nlargest1, Option.some.injEq] at h
    subst h
    obtain ⟨hmem, hx, hall⟩ := foldl_pickMax_spec as a
    constructor
    · rcases hmem with h | h
      · rw [h]
        exact List.mem_cons_self a as
      · exact List.mem_cons_of_mem _ h
    · intro y hy
      rcases List.mem_cons.mp hy with rfl | hy
      · exact hx
      · exact hall y hy

/-- C4 counterexample: on the scope column `[b, b, b, a, a, c]` with
`topN = 3`, `find_most_duplicated_values` returns the singleton group
`(c, 1)` alongside groups of 3 and 2 members — contradicting the claimed
restriction that singleton groups appear only when no group has more
than one member. -/
theorem claim_C4_counterexample :
    find_most_duplicated_values c4df "k" 3
      = [(some (.str "b"), 3), (some (.str "a"), 2), (some (.str "c"), 1)]
    ∧ (∃ p ∈ find_most_duplicated_values c4df "k" 3, p.2 = 1)
    ∧ (∃ p ∈ find_most_duplicated_values c4df "k" 3, 1 < p.2) := by
  decide

/-- C4 (amended): `find_most_duplicated_values` groups rows by the scope
column (null its own group) and returns the `min topN #groups` groups of
largest member counts in non-increasing count order — **all** groups are
eligible, duplicated or not, so singleton groups appear whenever `topN`
exceeds the number of larger groups; "largest" is pinned down by
dominance: every group left out has at most the member count of every
group returned.  (The order of equal-count groups is left unspecified:
the code's unstable sort does not determine it, and neither claim nor
theorem relies on it.)  The top-1 variant
(`find_most_duplicated_search_key`) does restrict to groups with more
than one member: it returns `None` exactly when no value occurs more
than once, and otherwise a value of maximal occurrence count. -/
theorem claim_C4_top_groups (d : DataFrame) (key : String) (n : Nat) :
    (find_most_duplicated_values d key n).length
        = min n (columnCells d key).dedup.length
    ∧ List.Sorted (fun a b : Nat => b ≤ a)
        ((find_most_duplicated_values d key n).map Prod.snd)
    ∧ (∀ p ∈ find_most_duplicated_values d key n,
        p.1 ∈ columnCells d key ∧ p.2 = (columnCells d key).count p.1)
    ∧ ((find_most_duplicated_values d key n).map Prod.fst).Nodup
    ∧ (∀ v : Cell, v ∈ columnCells d key →
        (∀ p ∈ find_most_duplicated_values d key n, p.1 ≠ v) →
        ∀ p ∈ find_most_duplicated_values d key n,
          (columnCells d key).count v ≤ p.2)
    ∧ (find_most_duplicated_search_key d key = none ↔
        ∀ v : Cell, (columnCells d key).count v ≤ 1)
    ∧ (∀ g, find_most_duplicated_search_key d key = some g →
        1 < g.count ∧ g.count = (columnCells d key).count g.value
          ∧ ∀ v : Cell, (columnCells d key).count v ≤ g.count) := by
  haveI htot : IsTotal (Cell × Nat) (fun a b => b.2 ≤ a.2) :=
    ⟨fun a b => Nat.le_total b.2 a.2⟩
  haveI htr : IsTrans (Cell × Nat) (fun a b => b.2 ≤ a.2) :=
    ⟨fun a b c h1 h2 => Nat.le_trans h2 h1⟩
  have hsorted : List.Pairwise (fun a b : Cell × Nat => b.2 ≤ a.2)
      (List.insertionSort (fun a b => b.2 ≤ a.2)
        (groupbySize (columnCells d key))) :=
    List.sorted_insertionSort _ _
  refine ⟨?_, ?_, ?_, ?_, ?_, ?_, ?_⟩
  · simp only [find_most_duplicated_values, List.length_take,
      List.length_insertionSort, length_groupbySize]
    omega
  · have h1 : List.Pairwise (fun a b : Cell × Nat => b.2 ≤ a.2)
        (find_most_duplicated_values d key n) := by
      simp only [find_most_duplicated_values]
      exact List.Pairwise.sublist (List.take_sublist _ _) hsorted
    exact List.pairwise_map.mpr h1
  · intro p hp
    simp only [find_most_duplicated_values] at hp
    have hp2 : p ∈ groupbySize (columnCells d key) :=
      (List.mem_insertionSort _).mp ((List.take_sublist _ _).subset hp)
    exact (mem_groupbySize _ p).mp hp2
  · have hnd0 : ((groupbySize (columnCells d key)).map Prod.fst).Nodup := by
      unfold groupbySize
      rw [List.map_map]
      have hcomp : (Prod.fst ∘ fun v : Cell => (v, (columnCells d key).count v)) = id := rfl
      rw [hcomp, List.map_id]
      exact ((List.perm_insertionSort _ _).symm).nodup (List.nodup_dedup _)
    have hnd1 : ((List.insertionSort (fun a b => b.2 ≤ a.2)
        (groupbySize (columnCells d key))).map Prod.fst).Nodup :=
      (((List.perm_insertionSort _ _).map Prod.fst).symm).nodup hnd0
    simp only [find_most_duplicated_values, List.map_take]
    exact List.Nodup.sublist (List.take_sublist _ _) hnd1
  · intro v hv hexcl p hp
    simp only [find_most_duplicated_values] at hexcl hp
    have hvg : (v, (columnCells d key).count v)
        ∈ List.insertionSort (fun a b => b.2 ≤ a.2)
          (groupbySize (columnCells d key)) :=
      (List.mem_insertionSort _).mpr ((mem_groupbySize _ _).mpr ⟨hv, rfl⟩)
    have hsplit := List.take_append_drop
      (min n (List.insertionSort (fun a b => b.2 ≤ a.2)
        (groupbySize (columnCells d key))).length)
      (List.insertionSort (fun a b => b.2 ≤ a.2) (groupbySize (columnCells d key)))
    have hpw := hsorted
    rw [← hsplit] at hpw hvg
    rcases List.mem_append.mp hvg with hmem | hmem
    · exact absurd rfl (hexcl _ hmem)
    · exact (List.pairwise_append.mp hpw).2.2 p hp _ hmem
  · constructor
    · intro h v
      simp only [find_most_duplicated_search_key] at h
      cases hnl : nlargest1 ((groupbySize (columnCells d key)).filter
          (fun g => 1 < g.2)) with
      | some p =>
        obtain ⟨a, b⟩ := p
        rw [hnl] at h
        simp at h
      | none =>
        have hfil := (nlargest1_none_iff _).mp hnl
        by_cases hv : v ∈ columnCells d key
        · have hmem : (v, (columnCells d key).count v) ∈ groupbySize (columnCells d key) :=
            (mem_groupbySize _ _).mpr ⟨hv, rfl⟩
          have hnp := List.filter_eq_nil_iff.mp hfil _ hmem
          simpa using hnp
        · have := List.count_eq_zero.mpr hv
          omega
    · intro hall
      simp only [find_most_duplicated_search_key]
      have hfil : (groupbySize (columnCells d key)).filter (fun g => 1 < g.2) = [] := by
        rw [List.filter_eq_nil_iff]
        intro p hp
        have hc := (mem_groupbySize _ p).mp hp
        have := hall p.1
        simp only [decide_eq_true_eq]
        omega
      rw [hfil]
      rfl
  · intro g hg
    simp only [find_most_duplicated_search_key] at hg
    cases hnl : nlargest1 ((groupbySize (columnCells d key)).filter
        (fun g => 1 < g.2)) with
    | none =>
      rw [hnl] at hg
      simp at hg
    | some p =>
      obtain ⟨v, c⟩ := p
      rw [hnl] at hg
      simp only [Option.some.injEq] at hg
      subst hg
      obtain ⟨hmem, hmax⟩ := nlargest1_spec _ _ hnl
      have hmemf := List.mem_filter.mp hmem
      have hgb := (mem_groupbySize _ _).mp hmemf.1
      have hlt : 1 < c := by simpa using hmemf.2
      refine ⟨hlt, hgb.2, ?_⟩
      intro v'
      by_cases h1 : 1 < (columnCells d key).count v'
      · have hv' : v' ∈ columnCells d key := by
          rw [← List.count_pos_iff]
          omega
        have hm : (v', (columnCells d key).count v') ∈
            (groupbySize (columnCells d key)).filter (fun g => 1 < g.2) :=
          List.mem_filter.mpr ⟨(mem_groupbySize _ _).mpr ⟨hv', rfl⟩, by simpa using h1⟩
        exact hmax _ hm
      · exact Nat.le_trans (Nat.le_of_not_lt h1) (Nat.le_of_lt hlt)

/-- `pysort` outputs are sorted in the code-point order. -/
theorem sorted_pysort (l : List String) :
    List.Sorted (fun a b : String => a.data ≤ b.data) (pysort l) := by
  haveI : IsTotal String (fun a b : String => a.data ≤ b.data) :=
    ⟨fun a b => le_total a.data b.data⟩
  haveI : IsTrans String (fun a b : String => a.data ≤ b.data) :=
    ⟨fun a b c h1 h2 => le_trans h1 h2⟩
  simp only [pysort]
  exact List.sorted_insertionSort _ l

/-- A sorted list is the `pysort` of any list it permutes. -/
theorem sorted_eq_pysort {l m : List String}
    (hs : List.Sorted (fun a b : String => a.data ≤ b.data) l) (hp : l.Perm m) :
    l = pysort m := by
  haveI : IsAntisymm String (fun a b : String => a.data ≤ b.data) :=
    ⟨fun a b h1 h2 => String.ext (le_antisymm h1 h2)⟩
  exact List.eq_of_perm_of_sorted (hp.trans (List.perm_insertionSort _ m).symm) hs
    (sorted_pysort m)

/-- On duplicate-free inputs, `pysort` depends only on membership. -/
theorem pysort_congr {l m : List String} (hl : l.Nodup) (hm : m.Nodup)
    (h : ∀ c, c ∈ l ↔ c ∈ m) : pysort l = pysort m := by
  have hperm : l.Perm m := (List.perm_ext_iff_of_nodup hl hm).mpr h
  exact sorted_eq_pysort (sorted_pysort l) ((List.perm_insertionSort _ l).trans hperm)

/-- Projecting the column names out of a record sort is the plain sort of
the names. -/
theorem map_column_pysortBy (recs : List ColInfo) :
    (pysortBy recs).map ColInfo.column = pysort (recs.map ColInfo.column) := by
  haveI : IsTotal ColInfo (fun a b : ColInfo => a.column.data ≤ b.column.data) :=
    ⟨fun a b => le_total _ _⟩
  haveI : IsTrans ColInfo (fun a b : ColInfo => a.column.data ≤ b.column.data) :=
    ⟨fun a b c h1 h2 => le_trans h1 h2⟩
  have hs : List.Sorted (fun a b : String => a.data ≤ b.data)
      ((pysortBy recs).map ColInfo.column) := by
    refine List.pairwise_map.mpr ?_
    simp only [pysortBy]
    exact List.sorted_insertionSort _ recs
  have hp : ((pysortBy recs).map ColInfo.column).Perm (recs.map ColInfo.column) := by
    simp only [pysortBy]
    exact (List.perm_insertionSort _ recs).map _
  exact sorted_eq_pysort hs hp

/-- The order-level names of `classify_columns` are the sorted filter of
the non-protected constant columns. -/
theorem classify_order_names (d : DataFrame) (prot : List String) :
    (classify_columns d prot).order_level.map ColInfo.column
      = pysort ((d.cols.filter (fun c => !(prot.contains c))).filter
          (fun c => colUnique d c ≤ 1)) := by
  unfold classify_columns
  rw [map_column_pysortBy]
  congr 1
  rw [List.map_map]
  have hcomp : (ColInfo.column ∘ fun c =>
      ({ mkColInfo d c with
        sample_value := some ((columnCells d c).headD none) } : ColInfo)) = id := rfl
  rw [hcomp, List.map_id]

/-- The item-level names of `classify_columns` are the sorted filter of
the non-protected varying columns. -/
theorem classify_item_names (d : DataFrame) (prot : List String) :
    (classify_columns d prot).item_level.map ColInfo.column
      = pysort ((d.cols.filter (fun c => !(prot.contains c))).filter
          (fun c => !(colUnique d c ≤ 1))) := by
  unfold classify_columns
  rw [map_column_pysortBy]
  congr 1
  rw [List.map_map]
  have hcomp : (ColInfo.column ∘ fun c =>
      ({ mkColInfo d c with
        sample_values := some (((columnCells d c).filterMap id).eraseDups.take 5) }
        : ColInfo)) = id := rfl
  rw [hcomp, List.map_id]

/-- Frame whose columns come in the order `b, a`. -/
def c10df : DataFrame := { cols := ["b", "a"], rows := [[some (.num 1), some (.num 2)]] }

/-- The same data with the columns inserted in the order `a, b`. -/
def c10df' : DataFrame := { cols := ["a", "b"], rows := [[some (.num 2), some (.num 1)]] }

/-- C10: both classifiers return their `order_level` and `item_level`
lists sorted alphabetically (code-point order) by column name, and the
lists depend only on which columns exist with which values — not on the
dataset's column insertion order; the reducer's seed (the column list of
the first trace entry) is exactly `base_key ++ item_level_columns`, so a
classifier-fed seed appends the item-level columns alphabetically and
that order fixes which columns the greedy reduction tries first. -/
theorem claim_C10_alphabetical (d d' : DataFrame) (prot base item : List String)
    (hnd : d.cols.Nodup) (hnd' : d'.cols.Nodup)
    (hperm : d.cols.Perm d'.cols)
    (hvals : ∀ c ∈ d.cols, columnCells d c = columnCells d' c) :
    List.Sorted (fun a b : String => a.data ≤ b.data)
      (classify_columns_by_variance d base).order_level
    ∧ List.Sorted (fun a b : String => a.data ≤ b.data)
      (classify_columns_by_variance d base).item_level
    ∧ List.Sorted (fun a b : String => a.data ≤ b.data)
      ((classify_columns d prot).order_level.map ColInfo.column)
    ∧ List.Sorted (fun a b : String => a.data ≤ b.data)
      ((classify_columns d prot).item_level.map ColInfo.column)
    ∧ classify_columns_by_variance d base = classify_columns_by_variance d' base
    ∧ (classify_columns d prot).order_level.map ColInfo.column
        = (classify_columns d' prot).order_level.map ColInfo.column
    ∧ (classify_columns d prot).item_level.map ColInfo.column
        = (classify_columns d' prot).item_level.map ColInfo.column
    ∧ (find_minimal_pk d base item).all
        (fun r => r.iterations.head?.map IterRec.columns == some (base ++ item)) = true := by
  have hmem : ∀ c, c ∈ d.cols ↔ c ∈ d'.cols := fun c => hperm.mem_iff
  have hcu : ∀ c ∈ d.cols, colUnique d c = colUnique d' c := by
    intro c hc
    unfold colUnique
    rw [hvals c hc]
  have hfilters : ∀ (outer : String → Bool) (cond : DataFrame → String → Bool),
      (∀ c ∈ d.cols, cond d c = cond d' c) →
      pysort ((d.cols.filter outer).filter (cond d))
        = pysort ((d'.cols.filter outer).filter (cond d')) := by
    intro outer cond hcond
    apply pysort_congr (List.Nodup.filter _ (List.Nodup.filter _ hnd))
      (List.Nodup.filter _ (List.Nodup.filter _ hnd'))
    intro c
    simp only [List.mem_filter]
    constructor
    · rintro ⟨⟨hc, ho⟩, hu⟩
      exact ⟨⟨(hmem c).mp hc, ho⟩, by rw [← hcond c hc]; exact hu⟩
    · rintro ⟨⟨hc, ho⟩, hu⟩
      have hcd : c ∈ d.cols := (hmem c).mpr hc
      exact ⟨⟨hcd, ho⟩, by rw [hcond c hcd]; exact hu⟩
  refine ⟨?_, ?_, ?_, ?_, ?_, ?_, ?_, ?_⟩
  · simp only [classify_columns_by_variance]
    exact sorted_pysort _
  · simp only [classify_columns_by_variance]
    exact sorted_pysort _
  · rw [classify_order_names]
    exact sorted_pysort _
  · rw [classify_item_names]
    exact sorted_pysort _
  · simp only [classify_columns_by_variance, VarianceClassification.mk.injEq]
    refine ⟨?_, ?_, trivial⟩
    · exact hfilters _ (fun e c => decide (colUnique e c ≤ 1)) (by
        intro c hc
        show decide (colUnique d c ≤ 1) = decide (colUnique d' c ≤ 1)
        rw [hcu c hc])
    · exact hfilters _ (fun e c => !(decide (colUnique e c ≤ 1))) (by
        intro c hc
        show (!(decide (colUnique d c ≤ 1))) = (!(decide (colUnique d' c ≤ 1)))
        rw [hcu c hc])
  · rw [classify_order_names, classify_order_names]
    exact hfilters _ (fun e c => decide (colUnique e c ≤ 1)) (by
      intro c hc
      show decide (colUnique d c ≤ 1) = decide (colUnique d' c ≤ 1)
      rw [hcu c hc])
  · rw [classify_item_names, classify_item_names]
    exact hfilters _ (fun e c => !(decide (colUnique e c ≤ 1))) (by
      intro c hc
      show (!(decide (colUnique d c ≤ 1))) = (!(decide (colUnique d' c ≤ 1)))
      rw [hcu c hc])
  · simp only [find_minimal_pk]
    split
    · rfl
    next v hv =>
      split
      · simp [IterRec.columns]
      · split
        · split
          · split
            · rfl
            next v2 hv2 =>
              split
              · simp [IterRec.columns]
              · simp [IterRec.columns]
          · simp [IterRec.columns]
        · simp [IterRec.columns]

/-- Witness for C10 on the same one-row data presented with columns in
the orders `b, a` and `a, b`. -/
theorem claim_C10_witness :
    List.Sorted (fun a b : String => a.data ≤ b.data)
      (classify_columns_by_variance c10df ["a"]).order_level
    ∧ List.Sorted (fun a b : String => a.data ≤ b.data)
      (classify_columns_by_variance c10df ["a"]).item_level
    ∧ List.Sorted (fun a b : String => a.data ≤ b.data)
      ((classify_columns c10df []).order_level.map ColInfo.column)
    ∧ List.Sorted (fun a b : String => a.data ≤ b.data)
      ((classify_columns c10df []).item_level.map ColInfo.column)
    ∧ classify_columns_by_variance c10df ["a"] = classify_columns_by_variance c10df' ["a"]
    ∧ (classify_columns c10df []).order_level.map ColInfo.column
        = (classify_columns c10df' []).order_level.map ColInfo.column
    ∧ (classify_columns c10df []).item_level.map ColInfo.column
        = (classify_columns c10df' []).item_level.map ColInfo.column
    ∧ (find_minimal_pk c10df ["a"] ["b"]).all
        (fun r => r.iterations.head?.map IterRec.columns == some (["a"] ++ ["b"])) = true :=
  claim_C10_alphabetical c10df c10df' [] ["a"] ["b"] (by decide) (by decide) (by decide)
    (by decide)

end PkFinder
